import Mathlib

/-!
Verification of the zoenApp playbook automation engine specification.

The data model (triggers, actions, playbooks, executions) is embedded from
the TypeScript declarations in `lib/types/playbook.ts`; the management UI
behaviour is embedded from the playbooks page and the playbook editor
components; the storage layer is embedded from the SQL migration that
creates the `playbooks` table and its `update_playbooks_timestamp` trigger.
The engine core (`crates/screenpipe-core/src/playbook_engine.rs`) is not
part of the provided sources, so the trigger matcher, rate limiter, action
executor and dispatch loop are modelled from the specification, as marked
on each such definition.
-/

namespace Zoen

/-! ## Character-list string utilities (used by the trigger matcher models) -/

/-- Split a character list on a separator character. -/
def splitCh (c : Char) : List Char → List (List Char)
  | [] => [[]]
  | x :: xs =>
    match splitCh c xs with
    | [] => [[]]
    | y :: ys => if x == c then [] :: y :: ys else (x :: y) :: ys

/-- Does the second list start with the first one? -/
def strStartsWith : List Char → List Char → Bool
  | [], _ => true
  | _ :: _, [] => false
  | a :: as, b :: bs => a == b && strStartsWith as bs

/-- Does the haystack contain the needle as a contiguous run?  This is the
shallow model of a regular-expression *search* restricted to literal
patterns: the pattern may match anywhere inside the text, never requiring a
full match. -/
def strContainsSub (needle : List Char) : List Char → Bool
  | [] => needle.isEmpty
  | h :: t => strStartsWith needle (h :: t) || strContainsSub needle t

/-- Parse a non-empty run of decimal digits into a number. -/
def parseNatCh (cs : List Char) : Option Nat :=
  if cs.isEmpty then none
  else
    cs.foldl (fun acc c =>
      match acc with
      | none => none
      | some n => if c.isDigit then some (n * 10 + (c.toNat - 48)) else none)
      (some 0)

/-! ## Data model, embedded from `lib/types/playbook.ts` -/

/-- Source filter of a keyword trigger (`"ocr" | "audio" | "both"`). -/
inductive KwSource where
  | ocr
  | audio
  | both
deriving DecidableEq, Repr

/-- HTTP method of a webhook action. -/
inductive HttpMethod where
  | get
  | post
  | put
  | delete
deriving DecidableEq, Repr

/-- The `Trigger` tagged union from `lib/types/playbook.ts`: `AppOpenTrigger`,
`TimeTrigger`, `KeywordTrigger` and `ContextTrigger`.  The `threshold` of a
keyword trigger is a number in `[0, 1]` in the source; it is embedded as a
rational. -/
inductive Trigger where
  | app_open (app_name : String) (window_name : Option String)
  | time (cron : String) (description : Option String)
  | keyword (pattern : String) (source : KwSource) (threshold : Option ℚ)
  | context (apps : Option (List String)) (windows : Option (List String))
      (time_range : Option String) (days_of_week : Option (List Nat))
deriving DecidableEq, Repr

/-- The `type` discriminant string of a trigger, as serialized in the source. -/
def Trigger.typeName : Trigger → String
  | .app_open _ _ => "app_open"
  | .time _ _ => "time"
  | .keyword _ _ _ => "keyword"
  | .context _ _ _ _ => "context"

/-- The `Action` tagged union from `lib/types/playbook.ts`.  `Record<string,
unknown>` payloads (webhook headers/body, pipe params) are embedded as
string-keyed association lists, which is enough structure for every claim. -/
inductive Action where
  | notify (title message : String) (acts : Option (List (String × String)))
      (persistent : Option Bool)
  | summarize (timeframe : Nat) (focus : Option String) (output : Option String)
  | focus_mode (enabled : Bool) (duration : Option Nat)
      (allowed_apps : Option (List String)) (silence_notifications : Option Bool)
  | run_pipe (pipe_id : String) (params : Option (List (String × String)))
  | tag (tags : List String) (timeframe : Nat)
  | webhook (url : String) (method : HttpMethod)
      (headers : Option (List (String × String)))
      (body : Option (List (String × String)))
deriving DecidableEq, Repr

/-- The `Playbook` record from `lib/types/playbook.ts`. -/
structure Playbook where
  id : String
  name : String
  description : Option String := none
  enabled : Bool
  triggers : List Trigger
  actions : List Action
  cooldown_minutes : Option Nat := none
  max_executions_per_day : Option Nat := none
  created_at : Option String := none
  updated_at : Option String := none
  is_builtin : Option Bool := none
  icon : Option String := none
  color : Option String := none
deriving DecidableEq, Repr

/-- Status of a playbook execution
(`"running" | "completed" | "failed" | "cancelled"`). -/
inductive ExecStatus where
  | running
  | completed
  | failed
  | cancelled
deriving DecidableEq, Repr

/-- The `ActionResult` record from `lib/types/playbook.ts`; the untyped
`result` payload is embedded as an optional string. -/
structure ActionResult where
  action : Action
  success : Bool
  result : Option String := none
  error : Option String := none
  duration_ms : Nat
deriving DecidableEq, Repr

/-- The `PlaybookExecution` record from `lib/types/playbook.ts`; the
timestamp strings are embedded as minutes-since-epoch numbers, the
granularity at which the engine is specified. -/
structure PlaybookExecution where
  id : String
  playbook_id : String
  started_at : Nat
  completed_at : Option Nat := none
  status : ExecStatus
  triggered_by : Trigger
  action_results : List ActionResult
  error : Option String := none
deriving DecidableEq, Repr

/-! ## Built-in playbook templates, embedded from `BUILTIN_PLAYBOOKS` -/

/-- The `daily-standup` entry of `BUILTIN_PLAYBOOKS`. -/
def dailyStandup : Playbook :=
  { id := "daily-standup"
    name := "Daily Standup"
    description := some "Automatically generate a summary of your work at 9 AM on weekdays"
    enabled := false
    is_builtin := some true
    icon := some "📅"
    color := some "#3B82F6"
    triggers := [.time "0 9 * * 1-5" (some "Every weekday at 9:00 AM")]
    actions := [.summarize 1440 (some "action_items") (some "notification")]
    cooldown_minutes := some 60 }

/-- The `customer-call` entry of `BUILTIN_PLAYBOOKS`. -/
def customerCall : Playbook :=
  { id := "customer-call"
    name := "Customer Call"
    description := some "Focus on action items when joining Zoom or Google Meet"
    enabled := false
    is_builtin := some true
    icon := some "🎥"
    color := some "#10B981"
    triggers :=
      [.app_open "zoom" none,
       .app_open "chrome" (some "meet.google.com")]
    actions :=
      [.focus_mode true (some 60) (some ["zoom", "chrome"]) (some true),
       .notify "Customer Call Mode"
         "Focus mode enabled. I'll summarize action items at the end of the call."
         none (some false)] }

/-- The `deep-work` entry of `BUILTIN_PLAYBOOKS`. -/
def deepWork : Playbook :=
  { id := "deep-work"
    name := "Deep Work"
    description := some "Block distractions during focus time"
    enabled := false
    is_builtin := some true
    icon := some "🎯"
    color := some "#8B5CF6"
    triggers := [.context none none (some "09:00-12:00") (some [1, 2, 3, 4, 5])]
    actions :=
      [.focus_mode true (some 180) (some ["code", "cursor", "vscode", "terminal"]) (some true)]
    cooldown_minutes := some 240 }

/-- The `BUILTIN_PLAYBOOKS` template list from `lib/types/playbook.ts`. -/
def BUILTIN_PLAYBOOKS : List Playbook := [dailyStandup, customerCall, deepWork]

/-! ## Trigger matcher

Modelled from the spec: the trigger matcher lives in
`crates/screenpipe-core/src/playbook_engine.rs`, which is not among the
provided sources; these definitions follow spec sections 3 and 4.1. -/

/-- Source of a text-carrying event (OCR or audio transcript). -/
inductive EvSource where
  | ocr
  | audio
deriving DecidableEq, Repr

/-- An OCR or audio-transcript event: a source, the detected text and the
detection confidence in `[0, 1]`. -/
structure TextEvent where
  source : EvSource
  text : String
  confidence : ℚ
deriving DecidableEq, Repr

/-- Modelled from the spec: does a keyword trigger's source filter accept an
event's source (`both` accepts either, `ocr`/`audio` only their own kind)? -/
def sourceAllowed : KwSource → EvSource → Bool
  | .both, _ => true
  | .ocr, .ocr => true
  | .audio, .audio => true
  | _, _ => false

/-- Modelled from the spec (section 4.1, `Keyword`): a keyword trigger
matches a text event when the source filter accepts the event's source, the
pattern matches the text as a regular search (not a full match; literal
patterns are modelled as contiguous-run containment), and the detection
confidence is at least the threshold, which defaults to 0 when absent. -/
def keywordMatches (pattern : String) (src : KwSource) (threshold : Option ℚ)
    (ev : TextEvent) : Bool :=
  sourceAllowed src ev.source
    && strContainsSub pattern.toList ev.text.toList
    && decide (threshold.getD 0 ≤ ev.confidence)

/-- The engine's current snapshot of open apps, visible window titles, the
current local time (minutes after local midnight) and the current weekday
(0 = Sunday, as in `ContextTrigger.days_of_week`). -/
structure CtxSnapshot where
  openApps : List String
  windowTitles : List String
  minutesOfDay : Nat
  weekday : Nat
deriving DecidableEq, Repr

/-- Parse a `"HH:MM"` character list into minutes after midnight. -/
def parseHHMM (cs : List Char) : Option Nat :=
  match splitCh ':' cs with
  | [h, m] =>
    match parseNatCh h, parseNatCh m with
    | some hh, some mm => some (hh * 60 + mm)
    | _, _ => none
  | _ => none

/-- Parse a `"HH:MM-HH:MM"` time range into a pair of minutes after
midnight. -/
def parseTimeRange (s : String) : Option (Nat × Nat) :=
  match splitCh '-' s.toList with
  | [a, b] =>
    match parseHHMM a, parseHHMM b with
    | some x, some y => some (x, y)
    | _, _ => none
  | _ => none

/-- Modelled from the spec (section 4.1, `Context`): a context trigger is
satisfied when every present sub-field holds against the snapshot — AND
semantics across fields, an absent or empty field imposing no constraint.
Required apps must be among the open apps (case-insensitive, mirroring the
`AppOpen` conventions), required window titles must occur as substrings of
some visible title, the current local time must lie in the half-open
`[start, end)` range, and the weekday must be listed; a malformed time
range makes the trigger never satisfied (spec section 7, trigger
evaluation errors). -/
def contextMatches (apps : Option (List String)) (windows : Option (List String))
    (time_range : Option String) (days_of_week : Option (List Nat))
    (snap : CtxSnapshot) : Bool :=
  let appsOk :=
    match apps with
    | none => true
    | some l => l.all (fun a => snap.openApps.any (fun o => o.toLower == a.toLower))
  let windowsOk :=
    match windows with
    | none => true
    | some l => l.all (fun w =>
        snap.windowTitles.any (fun v => strContainsSub w.toLower.toList v.toLower.toList))
  let timeOk :=
    match time_range with
    | none => true
    | some s =>
      match parseTimeRange s with
      | none => false
      | some (a, b) => decide (a ≤ snap.minutesOfDay) && decide (snap.minutesOfDay < b)
  let daysOk :=
    match days_of_week with
    | none => true
    | some l => l.contains snap.weekday
  appsOk && windowsOk && timeOk && daysOk

/-- One parsed field of a 5-field cron expression: `*`, or a list of
inclusive numeric ranges (a plain number is a one-element range). -/
inductive CronField where
  | star
  | ranges (l : List (Nat × Nat))
deriving DecidableEq, Repr

/-- Parse one comma-separated item of a cron field: a number or `a-b`. -/
def parseCronItem (cs : List Char) : Option (Nat × Nat) :=
  match splitCh '-' cs with
  | [n] => (parseNatCh n).map (fun v => (v, v))
  | [a, b] =>
    match parseNatCh a, parseNatCh b with
    | some x, some y => some (x, y)
    | _, _ => none
  | _ => none

/-- Parse one field of a cron expression. -/
def parseCronField (cs : List Char) : Option CronField :=
  if cs == ['*'] then some .star
  else
    let items := (splitCh ',' cs).map parseCronItem
    if items.all (fun i => i.isSome) then some (.ranges (items.filterMap id)) else none

/-- A parsed 5-field cron expression
(minute, hour, day-of-month, month, day-of-week). -/
structure CronExpr where
  minute : CronField
  hour : CronField
  dom : CronField
  month : CronField
  dow : CronField
deriving DecidableEq, Repr

/-- Modelled from the spec (section 3, `Time{cron}`): parse a 5-field cron
expression string; a malformed expression yields `none` and the trigger is
treated as never satisfied (spec section 7). -/
def parseCron (s : String) : Option CronExpr :=
  match (splitCh ' ' s.toList).map parseCronField with
  | [some mi, some h, some d, some mo, some w] =>
    some { minute := mi, hour := h, dom := d, month := mo, dow := w }
  | _ => none

/-- Does a cron field accept a value? -/
def fieldMatches : CronField → Nat → Bool
  | .star, _ => true
  | .ranges l, v => l.any (fun r => decide (r.1 ≤ v) && decide (v ≤ r.2))

/-- The wall-clock minute carried by the once-per-minute clock tick. -/
structure TickTime where
  minute : Nat
  hour : Nat
  dom : Nat
  month : Nat
  dow : Nat
deriving DecidableEq, Repr

/-- Modelled from the spec (section 4.1, `Time`): a time trigger is
satisfied on a per-minute clock tick exactly when every cron field accepts
the tick's wall-clock minute. -/
def timeTriggerMatches (cron : String) (tk : TickTime) : Bool :=
  match parseCron cron with
  | none => false
  | some e =>
    fieldMatches e.minute tk.minute && fieldMatches e.hour tk.hour
      && fieldMatches e.dom tk.dom && fieldMatches e.month tk.month
      && fieldMatches e.dow tk.dow

/-- Modelled from the spec (section 4.1): which triggers a per-minute clock
tick can satisfy — time triggers against the cron fields and context
triggers against the current snapshot; app-open and keyword triggers need a
content event, not a tick. -/
def tickTriggerMatches (t : Trigger) (tk : TickTime) (snap : CtxSnapshot) : Bool :=
  match t with
  | .time cron _ => timeTriggerMatches cron tk
  | .context a w tr dw => contextMatches a w tr dw snap
  | _ => false

/-! ## Rate limiter

Modelled from the spec: the rate limiter lives in
`crates/screenpipe-core/src/playbook_engine.rs`, which is not among the
provided sources; these definitions follow spec section 4.2.  Time is
measured in minutes; `localDay` is the local calendar day of a minute
timestamp. -/

/-- The local calendar day of a minute-granularity timestamp. -/
def localDay (now : Nat) : Nat := now / 1440

/-- Modelled from the spec (section 3, Ownership): the in-memory per-playbook
rate-limiter state — the last-fired timestamp and today's admission count,
stamped with the local day it counts. -/
structure RateState where
  lastFiredAt : Option Nat
  todayCount : Nat
  todayStamp : Nat
deriving DecidableEq, Repr

/-- A fresh rate-limiter state, as after a process restart (spec section
4.2: state is in-memory and conservatively reset). -/
def freshRate : RateState := { lastFiredAt := none, todayCount := 0, todayStamp := 0 }

/-- Modelled from the spec (section 4.2): the lazy local-day rollover —
on first check of a new local day the daily counter is reset and restamped;
the last-fired timestamp is untouched. -/
def rollDay (now : Nat) (s : RateState) : RateState :=
  if localDay now = s.todayStamp then s
  else { lastFiredAt := s.lastFiredAt, todayCount := 0, todayStamp := localDay now }

/-- Modelled from the spec (section 4.2): deny if `cooldown_minutes` is set
and `now - last_fired_at < cooldown_minutes`. -/
def coolBlocked (cooldown : Option Nat) (now : Nat) (s : RateState) : Bool :=
  match cooldown, s.lastFiredAt with
  | some c, some lf => decide (now - lf < c)
  | _, _ => false

/-- Modelled from the spec (section 4.2): deny if `max_executions_per_day`
is set and today's admission count already reached the cap. -/
def capBlocked (cap : Option Nat) (s : RateState) : Bool :=
  match cap with
  | some n => decide (n ≤ s.todayCount)
  | none => false

/-- Modelled from the spec (section 4.2): `admit(playbook_id, now)` —
roll the day lazily, deny on cooldown or daily cap, and on admission set
`last_fired_at := now` and increment today's counter. -/
def admitStep (cooldown cap : Option Nat) (now : Nat) (s : RateState) :
    Bool × RateState :=
  let s1 := rollDay now s
  if coolBlocked cooldown now s1 || capBlocked cap s1 then (false, s1)
  else (true, { lastFiredAt := some now, todayCount := s1.todayCount + 1,
                todayStamp := s1.todayStamp })

/-- Fold the rate limiter over a sequence of qualifying-event timestamps and
count how many of them are admitted. -/
def countAdmits (cooldown cap : Option Nat) (s : RateState) : List Nat → Nat
  | [] => 0
  | t :: ts =>
    let r := admitStep cooldown cap t s
    (if r.1 then 1 else 0) + countAdmits cooldown cap r.2 ts

/-- Fold the rate limiter over a sequence of qualifying-event timestamps and
count how many admissions fall on local calendar day `d`. -/
def countAdmitsOnDay (cooldown cap : Option Nat) (s : RateState) (d : Nat) :
    List Nat → Nat
  | [] => 0
  | t :: ts =>
    let r := admitStep cooldown cap t s
    (if r.1 && (localDay t == d) then 1 else 0) + countAdmitsOnDay cooldown cap r.2 d ts

/-! ## Action executor and execution recorder

Modelled from the spec: the action executor lives in
`crates/screenpipe-core/src/playbook_engine.rs`, which is not among the
provided sources; these definitions follow spec sections 4.3, 4.4 and the
design note of section 9 (a fold over actions producing a result list,
never short-circuiting). -/

/-- The outcome an action back-end reports for one dispatched action. -/
structure ActionOutcome where
  success : Bool
  result : Option String := none
  error : Option String := none
  duration_ms : Nat
deriving DecidableEq, Repr

/-- A pluggable action back-end: every action call is caught at the action
boundary and converted into an outcome (spec section 5), so the back-end is
total. -/
def Backend := Action → ActionOutcome

/-- Modelled from the spec (section 4.3): run the action list strictly in
declared order, each action yielding exactly one `ActionResult`; one
action's failure never prevents subsequent actions from running. -/
def executeActions (backend : Backend) (acts : List Action) : List ActionResult :=
  acts.map (fun a =>
    let o := backend a
    { action := a, success := o.success, result := o.result, error := o.error,
      duration_ms := o.duration_ms })

/-- Modelled from the spec (section 4.4): the normal, uncancelled lifecycle
of one execution — created `running` at admission, then `completed` once
the action executor returns, irrespective of individual result successes. -/
def runExecution (backend : Backend) (execId : String) (p : Playbook)
    (trig : Trigger) (now : Nat) : PlaybookExecution :=
  { id := execId
    playbook_id := p.id
    started_at := now
    completed_at := some now
    status := .completed
    triggered_by := trig
    action_results := executeActions backend p.actions
    error := none }

/-! ## Engine dispatch for a clock tick

Modelled from the spec (sections 4.1, 4.5): on a tick, for every enabled
playbook in insertion order, the first satisfying trigger in declared order
is recorded as `triggered_by`, the rate limiter is consulted, and each
admitted match produces one recorded execution. -/

/-- Modelled from the spec (section 4.5): dispatch one per-minute clock tick
against the current playbook set, threading the per-playbook rate-limiter
states, and collect the recorded executions in insertion order. -/
def dispatchTick (backend : Backend) (pbs : List Playbook) (tk : TickTime)
    (snap : CtxSnapshot) (now : Nat) (states : String → RateState) :
    List PlaybookExecution × (String → RateState) :=
  match pbs with
  | [] => ([], states)
  | p :: rest =>
    if p.enabled then
      match p.triggers.find? (fun t => tickTriggerMatches t tk snap) with
      | some trig =>
        let r := admitStep p.cooldown_minutes p.max_executions_per_day now (states p.id)
        let states1 := fun k => if k = p.id then r.2 else states k
        if r.1 then
          let e := runExecution backend (p.id ++ "-" ++ toString now) p trig now
          let rec1 := dispatchTick backend rest tk snap now states1
          (e :: rec1.1, rec1.2)
        else dispatchTick backend rest tk snap now states1
      | none => dispatchTick backend rest tk snap now states
    else dispatchTick backend rest tk snap now states

/-! ## Playbook editor, embedded from `playbook-editor.tsx` -/

/-- The editor's React state: `name`, `description`, `icon`, `color`,
`triggers`, `actions` and the raw `cooldownMinutes` input string. -/
structure EditorState where
  name : String
  description : String
  icon : String
  color : String
  triggers : List Trigger
  actions : List Action
  cooldownMinutes : String
deriving Repr

/-- `const isValid = name && triggers.length > 0 && actions.length > 0`;
a JavaScript string is truthy exactly when it is non-empty. -/
def editorIsValid (s : EditorState) : Bool :=
  decide (s.name ≠ "") && decide (0 < s.triggers.length) && decide (0 < s.actions.length)

/-- The payload `handleSave` passes to `onSave` (shared by the create and
update paths of the playbooks page). -/
structure SaveData where
  name : String
  description : String
  icon : String
  color : String
  triggers : List Trigger
  actions : List Action
  cooldown_minutes : Option Nat
deriving Repr

/-- `handleSave`: build the save payload from the editor state;
`cooldown_minutes` is `undefined` when the input string is empty, otherwise
its parsed value. -/
def handleSave (s : EditorState) : SaveData :=
  { name := s.name
    description := s.description
    icon := s.icon
    color := s.color
    triggers := s.triggers
    actions := s.actions
    cooldown_minutes :=
      if s.cooldownMinutes = "" then none else parseNatCh s.cooldownMinutes.toList }

/-- The save button is rendered with `disabled={!isValid}`, so a save payload
is produced exactly when `isValid` holds. -/
def savedData (s : EditorState) : Option SaveData :=
  if editorIsValid s then some (handleSave s) else none

/-! ## Playbook card dropdown menu, embedded from the playbooks page -/

/-- The dropdown menu items of a playbook card on the playbooks page. -/
inductive MenuItem where
  | edit
  | duplicate
  | delete
deriving DecidableEq, Repr

/-- The rendered dropdown menu of a playbook card: Edit and Duplicate are
always present; the Delete item is rendered behind
`{!playbook.is_builtin && (...)}`, so it appears exactly when `is_builtin`
is falsy (absent or `false`). -/
def menuItems (p : Playbook) : List MenuItem :=
  [.edit, .duplicate] ++ (if p.is_builtin = some true then [] else [.delete])

/-! ## Storage layer, embedded from the playbooks migration -/

/-- One row of the `playbooks` table created by
`20260209000002`-era migration in `crates/screenpipe-db`. -/
structure PlaybookRow where
  id : String
  tenant_id : Option String
  name : String
  description : Option String
  enabled : Bool
  triggers_json : String
  actions_json : String
  cooldown_minutes : Option Nat
  max_executions_per_day : Option Nat
  created_at : String
  updated_at : String
  is_builtin : Bool
  icon : Option String
  color : Option String
deriving DecidableEq, Repr

/-- A SET clause for the `playbooks` table, shaped after
`UpdatePlaybookRequest` from `lib/types/playbook.ts`: each field, when
present, names the column the UPDATE assigns. -/
structure PlaybookUpdate where
  name : Option String := none
  description : Option String := none
  enabled : Option Bool := none
  triggers_json : Option String := none
  actions_json : Option String := none
  cooldown_minutes : Option Nat := none
  max_executions_per_day : Option Nat := none
  icon : Option String := none
  color : Option String := none
deriving Repr

/-- Apply the SET assignments of an UPDATE to one row: every named column
takes its new value, every other column keeps its previous value. -/
def applySet (u : PlaybookUpdate) (r : PlaybookRow) : PlaybookRow :=
  { r with
    name := u.name.getD r.name
    description := match u.description with | some v => some v | none => r.description
    enabled := u.enabled.getD r.enabled
    triggers_json := u.triggers_json.getD r.triggers_json
    actions_json := u.actions_json.getD r.actions_json
    cooldown_minutes :=
      match u.cooldown_minutes with | some v => some v | none => r.cooldown_minutes
    max_executions_per_day :=
      match u.max_executions_per_day with
      | some v => some v
      | none => r.max_executions_per_day
    icon := match u.icon with | some v => some v | none => r.icon
    color := match u.color with | some v => some v | none => r.color }

/-- The `update_playbooks_timestamp` trigger: AFTER UPDATE ON playbooks,
`UPDATE playbooks SET updated_at = CURRENT_TIMESTAMP WHERE id = NEW.id`
(non-recursive, as SQLite triggers are by default). -/
def touchUpdatedAt (now : String) (newId : String) (table : List PlaybookRow) :
    List PlaybookRow :=
  table.map (fun r => if r.id = newId then { r with updated_at := now } else r)

/-- One `UPDATE playbooks ... WHERE id = tid` statement followed by the
`update_playbooks_timestamp` trigger firing for the updated row. -/
def sqlUpdatePlaybook (table : List PlaybookRow) (tid : String)
    (u : PlaybookUpdate) (now : String) : List PlaybookRow :=
  touchUpdatedAt now tid
    (table.map (fun r => if r.id = tid then applySet u r else r))

/-! ## Theorems -/

/-- C9: every entry of the `BUILTIN_PLAYBOOKS` template list has
`enabled == false` and `is_builtin == true`, and has non-empty `triggers`
and `actions` arrays, so no built-in template is active until explicitly
enabled and every template satisfies the non-empty-triggers/actions
invariant. -/
theorem builtin_templates_wellformed :
    ∀ p ∈ BUILTIN_PLAYBOOKS,
      p.enabled = false ∧ p.is_builtin = some true ∧
      p.triggers ≠ [] ∧ p.actions ≠ [] := by
  intro p hp
  simp only [BUILTIN_PLAYBOOKS, List.mem_cons, List.not_mem_nil, or_false] at hp
  rcases hp with rfl | rfl | rfl <;>
    exact ⟨rfl, rfl, by simp [dailyStandup, customerCall, deepWork],
      by simp [dailyStandup, customerCall, deepWork]⟩

theorem builtin_templates_wellformed_witness :
    dailyStandup.enabled = false ∧ dailyStandup.is_builtin = some true ∧
    dailyStandup.triggers ≠ [] ∧ dailyStandup.actions ≠ [] :=
  builtin_templates_wellformed dailyStandup (by simp [BUILTIN_PLAYBOOKS])

/-- C10: on the playbooks page, the card dropdown renders the Delete item
exactly when `is_builtin` is not `true`, while Edit and Duplicate are
present for every playbook — so no delete can be issued for a built-in
playbook from the card's menu. -/
theorem delete_menu_only_for_non_builtin :
    ∀ p : Playbook,
      (MenuItem.delete ∈ menuItems p ↔ p.is_builtin ≠ some true) ∧
      MenuItem.edit ∈ menuItems p ∧ MenuItem.duplicate ∈ menuItems p := by
  intro p
  by_cases h : p.is_builtin = some true <;> simp [menuItems, h]

theorem delete_menu_only_for_non_builtin_witness :
    (MenuItem.delete ∈ menuItems dailyStandup ↔ dailyStandup.is_builtin ≠ some true) ∧
    MenuItem.edit ∈ menuItems dailyStandup ∧ MenuItem.duplicate ∈ menuItems dailyStandup :=
  delete_menu_only_for_non_builtin dailyStandup

/-- C5: the playbook editor only produces a save payload when `isValid`
holds, `isValid` fails exactly when the name is empty or the triggers or
actions list is empty, and every payload the editor hands to the create or
update path therefore has a non-empty name and at least one trigger and one
action. -/
theorem editor_save_validates :
    ∀ s : EditorState,
      (∀ d, savedData s = some d → d.name ≠ "" ∧ d.triggers ≠ [] ∧ d.actions ≠ []) ∧
      (editorIsValid s = false ↔ (s.name = "" ∨ s.triggers = [] ∨ s.actions = [])) := by
  intro s
  constructor
  · intro d hd
    by_cases hv : editorIsValid s = true
    · rw [savedData, if_pos hv] at hd
      cases hd
      simp only [editorIsValid, Bool.and_eq_true, decide_eq_true_eq] at hv
      refine ⟨hv.1.1, ?_, ?_⟩ <;>
        simp [handleSave, ← List.length_pos, hv.1.2, hv.2]
    · rw [savedData, if_neg hv] at hd
      cases hd
  · rw [show (editorIsValid s = false) ↔ ¬(editorIsValid s = true) by simp]
    simp only [editorIsValid, Bool.and_eq_true, decide_eq_true_eq]
    constructor
    · intro h
      by_cases h1 : s.name = ""
      · exact Or.inl h1
      · by_cases h2 : s.triggers = []
        · exact Or.inr (Or.inl h2)
        · refine Or.inr (Or.inr ?_)
          by_contra h3
          exact h ⟨⟨h1, List.length_pos.mpr h2⟩, List.length_pos.mpr h3⟩
    · rintro (h | h | h) ⟨⟨h1, h2⟩, h3⟩
      · exact h1 h
      · simp [h] at h2
      · simp [h] at h3

/-- A concrete editor state with a name, one trigger and one action. -/
def edSample : EditorState :=
  { name := "Standup"
    description := ""
    icon := "⚡"
    color := "#3B82F6"
    triggers := [.time "0 9 * * 1-5" none]
    actions := [.notify "t" "m" none none]
    cooldownMinutes := "" }

theorem editor_save_validates_witness :
    (handleSave edSample).name ≠ "" ∧ (handleSave edSample).triggers ≠ [] ∧
    (handleSave edSample).actions ≠ [] :=
  (editor_save_validates edSample).1 (handleSave edSample) (by rfl)

/-- C8: after an UPDATE of a `playbooks` row, the
`update_playbooks_timestamp` trigger sets that row's `updated_at` to the
current timestamp, and every column the update does not name — `id`,
`tenant_id`, `created_at`, `is_builtin` always, and each updatable column
whose SET entry is absent — keeps its previous value. -/
theorem playbooks_update_frame :
    ∀ (table : List PlaybookRow) (tid : String) (u : PlaybookUpdate)
      (now : String) (i : Nat) (r : PlaybookRow),
      table.get? i = some r → r.id = tid →
      ∃ r2, (sqlUpdatePlaybook table tid u now).get? i = some r2 ∧
        r2.updated_at = now ∧ r2.id = r.id ∧ r2.created_at = r.created_at ∧
        r2.tenant_id = r.tenant_id ∧ r2.is_builtin = r.is_builtin ∧
        (u.name = none → r2.name = r.name) ∧
        (u.description = none → r2.description = r.description) ∧
        (u.enabled = none → r2.enabled = r.enabled) ∧
        (u.triggers_json = none → r2.triggers_json = r.triggers_json) ∧
        (u.actions_json = none → r2.actions_json = r.actions_json) ∧
        (u.cooldown_minutes = none → r2.cooldown_minutes = r.cooldown_minutes) ∧
        (u.max_executions_per_day = none →
          r2.max_executions_per_day = r.max_executions_per_day) ∧
        (u.icon = none → r2.icon = r.icon) ∧
        (u.color = none → r2.color = r.color) := by
  intro table tid u now i r hr hid
  have hsetid : (applySet u r).id = r.id := rfl
  refine ⟨{ applySet u r with updated_at := now }, ?_, rfl, hsetid, rfl, rfl, rfl,
    ?_, ?_, ?_, ?_, ?_, ?_, ?_, ?_, ?_⟩
  · simp only [sqlUpdatePlaybook, touchUpdatedAt, List.get?_map, hr, Option.map_some']
    rw [if_pos hid, if_pos (hsetid.trans hid)]
  all_goals intro hn
  all_goals simp [applySet, hn]

/-- A concrete `playbooks` row used to witness the update frame theorem. -/
def rowSample : PlaybookRow :=
  { id := "p1"
    tenant_id := some "t1"
    name := "Old Name"
    description := some "desc"
    enabled := false
    triggers_json := "[]"
    actions_json := "[]"
    cooldown_minutes := some 60
    max_executions_per_day := some 3
    created_at := "2026-02-09 00:00:00"
    updated_at := "2026-02-09 00:00:00"
    is_builtin := false
    icon := some "⚡"
    color := some "#3B82F6" }

/-- A concrete SET clause that renames the playbook and leaves every other
column unnamed. -/
def updSample : PlaybookUpdate := { name := some "New Name" }

theorem playbooks_update_frame_witness :
    ∃ r2, (sqlUpdatePlaybook [rowSample] "p1" updSample "2026-02-10 08:00:00").get? 0 =
        some r2 ∧
      r2.updated_at = "2026-02-10 08:00:00" ∧ r2.id = rowSample.id ∧
      r2.created_at = rowSample.created_at ∧ r2.tenant_id = rowSample.tenant_id ∧
      r2.is_builtin = rowSample.is_builtin ∧
      (updSample.name = none → r2.name = rowSample.name) ∧
      (updSample.description = none → r2.description = rowSample.description) ∧
      (updSample.enabled = none → r2.enabled = rowSample.enabled) ∧
      (updSample.triggers_json = none → r2.triggers_json = rowSample.triggers_json) ∧
      (updSample.actions_json = none → r2.actions_json = rowSample.actions_json) ∧
      (updSample.cooldown_minutes = none →
        r2.cooldown_minutes = rowSample.cooldown_minutes) ∧
      (updSample.max_executions_per_day = none →
        r2.max_executions_per_day = rowSample.max_executions_per_day) ∧
      (updSample.icon = none → r2.icon = rowSample.icon) ∧
      (updSample.color = none → r2.color = rowSample.color) :=
  playbooks_update_frame [rowSample] "p1" updSample "2026-02-10 08:00:00" 0 rowSample
    rfl rfl

/-! ### Rate-limiter lemmas -/

/-- The lazy day rollover never touches the last-fired timestamp. -/
theorem rollDay_lastFired (now : Nat) (s : RateState) :
    (rollDay now s).lastFiredAt = s.lastFiredAt := by
  rw [rollDay]; split <;> rfl

/-- Unfolding equation for one admission check. -/
theorem admitStep_eq (cooldown cap : Option Nat) (now : Nat) (s : RateState) :
    admitStep cooldown cap now s =
      if coolBlocked cooldown now (rollDay now s) || capBlocked cap (rollDay now s)
      then (false, rollDay now s)
      else (true, { lastFiredAt := some now,
                    todayCount := (rollDay now s).todayCount + 1,
                    todayStamp := (rollDay now s).todayStamp }) := rfl

/-- An admission records `now` as the last-fired timestamp. -/
theorem admit_true_lastFired (cooldown cap : Option Nat) (now : Nat) (s : RateState)
    (h : (admitStep cooldown cap now s).1 = true) :
    (admitStep cooldown cap now s).2.lastFiredAt = some now := by
  rw [admitStep_eq] at h ⊢
  split at h
  · cases h
  · rename_i hcond
    rw [if_neg hcond]

/-- Admission is denied whenever the cooldown is set and less than
`cooldown` minutes have passed since the last firing. -/
theorem admit_denied_in_cooldown (c : Nat) (cap : Option Nat) (now lf : Nat)
    (s : RateState) (hlf : s.lastFiredAt = some lf) (hc : now - lf < c) :
    (admitStep (some c) cap now s).1 = false := by
  rw [admitStep_eq]
  have hb : coolBlocked (some c) now (rollDay now s) = true := by
    have h2 : (rollDay now s).lastFiredAt = some lf := by
      rw [rollDay_lastFired]; exact hlf
    unfold coolBlocked
    rw [h2]
    exact decide_eq_true hc
  rw [hb, Bool.true_or, if_pos rfl]

/-- Unfolding equation for admission counting on a two-element run. -/
theorem countAdmits_cons (cooldown cap : Option Nat) (s : RateState) (t : Nat)
    (ts : List Nat) :
    countAdmits cooldown cap s (t :: ts) =
      (if (admitStep cooldown cap t s).1 then 1 else 0)
        + countAdmits cooldown cap (admitStep cooldown cap t s).2 ts := rfl

/-- C1: for a playbook with `cooldown_minutes = C`, two qualifying events
less than `C` minutes apart are admitted at most once — if the limiter has
recorded a firing at `t1`, the admission check at `t2` with `t2 - t1 < C`
is denied. -/
theorem cooldown_two_events_at_most_one :
    ∀ (c : Nat) (cap : Option Nat) (s : RateState) (t1 t2 : Nat),
      t1 ≤ t2 → t2 - t1 < c →
      countAdmits (some c) cap s [t1, t2] ≤ 1 ∧
      (s.lastFiredAt = some t1 → (admitStep (some c) cap t2 s).1 = false) := by
  intro c cap s t1 t2 _ hc
  refine ⟨?_, fun hlf => admit_denied_in_cooldown c cap t2 t1 s hlf hc⟩
  rw [countAdmits_cons, countAdmits_cons]
  by_cases h1 : (admitStep (some c) cap t1 s).1 = true
  · have hlf := admit_true_lastFired (some c) cap t1 s h1
    have h2 := admit_denied_in_cooldown c cap t2 t1 _ hlf hc
    simp [h1, h2, countAdmits]
  · rw [Bool.not_eq_true] at h1
    rw [h1]
    simp only [Bool.false_eq_true, if_false, countAdmits, Nat.zero_add, Nat.add_zero]
    split <;> omega

/-- A limiter state that has just fired at minute 100. -/
def firedAt100 : RateState :=
  { lastFiredAt := some 100, todayCount := 1, todayStamp := 0 }

theorem cooldown_two_events_at_most_one_witness :
    countAdmits (some 10) none firedAt100 [100, 105] ≤ 1 ∧
    (firedAt100.lastFiredAt = some 100 →
      (admitStep (some 10) none 105 firedAt100).1 = false) :=
  cooldown_two_events_at_most_one 10 none firedAt100 100 105 (by decide) (by decide)

/-- Unfolding equation for day-filtered admission counting. -/
theorem countOnDay_cons (cooldown cap : Option Nat) (s : RateState) (d t : Nat)
    (ts : List Nat) :
    countAdmitsOnDay cooldown cap s d (t :: ts) =
      (if (admitStep cooldown cap t s).1 && (localDay t == d) then 1 else 0)
        + countAdmitsOnDay cooldown cap (admitStep cooldown cap t s).2 d ts := rfl

/-- No event outside day `d` can contribute an admission on day `d`. -/
theorem countOnDay_zero (cooldown cap : Option Nat) (d : Nat) :
    ∀ (ts : List Nat) (s : RateState), (∀ t ∈ ts, localDay t ≠ d) →
      countAdmitsOnDay cooldown cap s d ts = 0 := by
  intro ts
  induction ts with
  | nil => intro s _; rfl
  | cons t ts ih =>
    intro s h
    rw [countOnDay_cons]
    have hne : (localDay t == d) = false :=
      beq_eq_false_iff_ne.mpr (h t (List.mem_cons_self t ts))
    rw [hne, Bool.and_false, if_neg (by simp), Nat.zero_add]
    exact ih _ (fun u hu => h u (List.mem_cons_of_mem t hu))

/-- Unfolding equation for day-filtered admission counting, phrased on the
components of the admission result. -/
theorem countOnDay_cons2 {cooldown cap : Option Nat} {s : RateState}
    {t : Nat} {b : Bool} {s2 : RateState} (d : Nat) (ts : List Nat)
    (hA : admitStep cooldown cap t s = (b, s2)) :
    countAdmitsOnDay cooldown cap s d (t :: ts) =
      (if b && (localDay t == d) then 1 else 0)
        + countAdmitsOnDay cooldown cap s2 d ts := by
  rw [countOnDay_cons, hA]

/-- The admission contribution to day `d`, as a propositional condition. -/
theorem contrib_eq (b : Bool) (x d : Nat) :
    (if (b && (x == d)) = true then (1 : Nat) else 0) =
      if b = true ∧ x = d then 1 else 0 := by
  cases b <;> by_cases h : x = d <;> simp [h]

/-- Running the limiter with cap `N` over nondecreasing event timestamps
that never precede the state's current day stamp admits, on any day `d`, at
most `N` minus what the current counter already holds for `d`. -/
theorem countOnDay_le (cooldown : Option Nat) (N d : Nat) :
    ∀ (ts : List Nat) (s : RateState), List.Pairwise (fun a b => a ≤ b) ts →
      (∀ t ∈ ts, s.todayStamp ≤ localDay t) →
      countAdmitsOnDay cooldown (some N) s d ts ≤
        N - (if s.todayStamp = d then s.todayCount else 0) := by
  intro ts
  induction ts with
  | nil => intro s _ _; simp [countAdmitsOnDay]
  | cons t ts ih =>
    intro s hp hd
    obtain ⟨hpt, hp'⟩ := List.pairwise_cons.mp hp
    have hst : s.todayStamp ≤ localDay t := hd t (List.mem_cons_self t ts)
    by_cases hroll : localDay t = s.todayStamp
    · -- same local day: the rollover is a no-op
      have hs1 : rollDay t s = s := by rw [rollDay, if_pos hroll]
      by_cases hblk : (coolBlocked cooldown t s || capBlocked (some N) s) = true
      · have hA : admitStep cooldown (some N) t s = (false, s) := by
          rw [admitStep_eq, hs1, if_pos hblk]
        rw [countOnDay_cons2 d ts hA, contrib_eq,
          if_neg (fun h => by cases h.1), Nat.zero_add]
        exact ih s hp' (fun u hu => hd u (List.mem_cons_of_mem t hu))
      · have hcap : s.todayCount < N := by
          by_contra hge
          refine hblk ?_
          have hcb : capBlocked (some N) s = true := decide_eq_true (by omega)
          rw [hcb, Bool.or_true]
        have hA : admitStep cooldown (some N) t s =
            (true, ⟨some t, s.todayCount + 1, s.todayStamp⟩) := by
          rw [admitStep_eq, hs1, if_neg hblk]
        rw [countOnDay_cons2 d ts hA, contrib_eq]
        have hrec : countAdmitsOnDay cooldown (some N)
            ⟨some t, s.todayCount + 1, s.todayStamp⟩ d ts ≤
            N - (if s.todayStamp = d then s.todayCount + 1 else 0) :=
          ih ⟨some t, s.todayCount + 1, s.todayStamp⟩ hp'
            (fun u hu => hd u (List.mem_cons_of_mem t hu))
        by_cases hsd : s.todayStamp = d
        · rw [if_pos (show (true = true ∧ localDay t = d) from
            ⟨rfl, hroll.trans hsd⟩), if_pos hsd]
          rw [if_pos hsd] at hrec
          omega
        · rw [if_neg (show ¬(true = true ∧ localDay t = d) from
            fun h => hsd (hroll.symm.trans h.2)), if_neg hsd]
          rw [if_neg hsd] at hrec
          omega
    · -- new local day: the counter is lazily reset and restamped
      have hs1 : rollDay t s = ⟨s.lastFiredAt, 0, localDay t⟩ := by
        rw [rollDay, if_neg hroll]
      have hgt : s.todayStamp < localDay t := lt_of_le_of_ne hst (fun h => hroll h.symm)
      have hd' : ∀ u ∈ ts, localDay t ≤ localDay u := fun u hu =>
        Nat.div_le_div_right (hpt u hu)
      by_cases hsd : s.todayStamp = d
      · -- the run has moved strictly past day d: nothing more can land on d
        have htd : localDay t ≠ d := fun he => by omega
        have hzero : countAdmitsOnDay cooldown (some N)
            (admitStep cooldown (some N) t s).2 d ts = 0 :=
          countOnDay_zero cooldown (some N) d ts _
            (fun u hu => by
              have h2 : localDay t ≤ localDay u := hd' u hu
              omega)
        rw [countOnDay_cons, contrib_eq, if_neg (fun h => htd h.2), Nat.zero_add,
          hzero]
        exact Nat.zero_le _
      · rw [show (if s.todayStamp = d then s.todayCount else 0) = 0
          from if_neg hsd]
        by_cases hblk : (coolBlocked cooldown t
            (⟨s.lastFiredAt, 0, localDay t⟩ : RateState)
            || capBlocked (some N) (⟨s.lastFiredAt, 0, localDay t⟩ : RateState)) = true
        · have hA : admitStep cooldown (some N) t s =
              (false, ⟨s.lastFiredAt, 0, localDay t⟩) := by
            rw [admitStep_eq, hs1, if_pos hblk]
          rw [countOnDay_cons2 d ts hA, contrib_eq,
            if_neg (fun h => by cases h.1), Nat.zero_add]
          have hrec : countAdmitsOnDay cooldown (some N)
              ⟨s.lastFiredAt, 0, localDay t⟩ d ts ≤
              N - (if localDay t = d then 0 else 0) :=
            ih ⟨s.lastFiredAt, 0, localDay t⟩ hp' hd'
          rcases eq_or_ne (localDay t) d with he | he
          · rw [if_pos he] at hrec; omega
          · rw [if_neg he] at hrec; omega
        · have hcapN : 0 < N := by
            by_contra h0
            refine hblk ?_
            have hcb : capBlocked (some N)
                (⟨s.lastFiredAt, 0, localDay t⟩ : RateState) = true :=
              decide_eq_true (by omega)
            rw [hcb, Bool.or_true]
          have hA : admitStep cooldown (some N) t s =
              (true, ⟨some t, 1, localDay t⟩) := by
            rw [admitStep_eq, hs1, if_neg hblk]
          rw [countOnDay_cons2 d ts hA, contrib_eq]
          have hrec : countAdmitsOnDay cooldown (some N)
              ⟨some t, 1, localDay t⟩ d ts ≤
              N - (if localDay t = d then 1 else 0) :=
            ih ⟨some t, 1, localDay t⟩ hp' hd'
          rcases eq_or_ne (localDay t) d with he | he
          · rw [if_pos (show (true = true ∧ localDay t = d) from ⟨rfl, he⟩)]
            rw [if_pos he] at hrec
            omega
          · rw [if_neg (show ¬(true = true ∧ localDay t = d) from fun h => he h.2),
              Nat.zero_add]
            rw [if_neg he] at hrec
            omega

/-- C2: for a playbook with `max_executions_per_day = N`, folding the rate
limiter from a fresh state over any nondecreasing sequence of qualifying
event timestamps admits at most `N` executions on any single local calendar
day, and the per-day counter is reset and restamped lazily on the first
check of a new local day. -/
theorem daily_cap_bound :
    ∀ (cooldown : Option Nat) (N d : Nat) (ts : List Nat) (now : Nat) (s : RateState),
      List.Pairwise (fun a b => a ≤ b) ts →
      countAdmitsOnDay cooldown (some N) freshRate d ts ≤ N ∧
      (localDay now ≠ s.todayStamp →
        (rollDay now s).todayCount = 0 ∧ (rollDay now s).todayStamp = localDay now) := by
  intro cooldown N d ts now s hp
  constructor
  · have h := countOnDay_le cooldown N d ts freshRate hp
      (fun t _ => Nat.zero_le (localDay t))
    by_cases h0 : (freshRate.todayStamp = d)
    · rw [if_pos h0] at h
      simpa [freshRate] using h
    · rw [if_neg h0] at h
      omega
  · intro hne
    rw [rollDay, if_neg (fun h => hne h)]
    exact ⟨rfl, rfl⟩

theorem daily_cap_bound_witness :
    countAdmitsOnDay none (some 2) freshRate 0 [1, 2, 3, 4, 5] ≤ 2 ∧
    (localDay 1441 ≠ freshRate.todayStamp →
      (rollDay 1441 freshRate).todayCount = 0 ∧
      (rollDay 1441 freshRate).todayStamp = localDay 1441) :=
  daily_cap_bound none 2 0 [1, 2, 3, 4, 5] 1441 freshRate (by decide)

/-! ### Action executor theorems -/

/-- A playbook whose action list is a Notify followed by a Webhook. -/
def notifyWebhookPlaybook : Playbook :=
  { id := "nw"
    name := "notify then webhook"
    enabled := true
    triggers := [.app_open "zoom" none]
    actions := [.notify "Call" "Joining a call" none none,
                .webhook "https://api.example.com/hook" .post none none] }

/-- A back-end on which every webhook call times out (a failure, not a
crash) while every other action succeeds. -/
def webhookFailBackend : Backend := fun a =>
  match a with
  | .webhook _ _ _ _ =>
    { success := false, error := some "timeout", duration_ms := 10000 }
  | _ => { success := true, result := some "ok", duration_ms := 5 }

/-- The executor's result list projects back to the action list. -/
theorem executeActions_actions (backend : Backend) :
    ∀ acts : List Action,
      (executeActions backend acts).map (fun r => r.action) = acts := by
  intro acts
  induction acts with
  | nil => rfl
  | cons a as ih => simpa [executeActions] using ih

/-- C3: the executor yields exactly one `ActionResult` per action, in
declared order, and the execution completes with status `completed`
regardless of individual successes; in particular with actions
`[Notify, Webhook]` where the webhook fails, the results' successes are
`[true, false]` and the status is `completed`, not `failed`. -/
theorem executor_isolates_failures :
    ∀ (backend : Backend) (eid : String) (p : Playbook) (trig : Trigger) (now : Nat),
      (runExecution backend eid p trig now).status = ExecStatus.completed ∧
      (runExecution backend eid p trig now).action_results.map
        (fun r => r.action) = p.actions ∧
      (runExecution webhookFailBackend eid notifyWebhookPlaybook trig now).action_results.map
        (fun r => r.success) = [true, false] ∧
      (runExecution webhookFailBackend eid notifyWebhookPlaybook trig now).status =
        ExecStatus.completed := by
  intro backend eid p trig now
  refine ⟨rfl, ?_, rfl, rfl⟩
  exact executeActions_actions backend p.actions

/-- A back-end on which every action succeeds. -/
def okBackend : Backend := fun _ =>
  { success := true, result := some "ok", duration_ms := 5 }

/-- C4: the daily-standup playbook (single trigger `Time{cron:"0 9 * * 1-5"}`,
single action `Summarize{timeframe:1440, focus:"action_items",
output:"notification"}`), once enabled, produces on a Monday 09:00 clock
tick exactly one execution, triggered by the time trigger, with exactly one
action result, for the summarize action. -/
theorem daily_standup_roundtrip :
    ((dispatchTick okBackend [{ dailyStandup with enabled := true }]
        { minute := 0, hour := 9, dom := 6, month := 10, dow := 1 }
        { openApps := [], windowTitles := [], minutesOfDay := 540, weekday := 1 }
        1000 (fun _ => freshRate)).1.map
      (fun e => (e.triggered_by.typeName, e.action_results.map (fun r => r.action)))) =
    [("time", [Action.summarize 1440 (some "action_items") (some "notification")])] := by
  rfl

/-! ### Context and keyword trigger theorems -/

/-- C6: the context trigger of the deep-work template — `days_of_week =
[1..5]` and `time_range = "09:00-12:00"`, with no app or window constraint —
matches a snapshot exactly when the weekday is Monday through Friday AND the
local time lies in `[09:00, 12:00)`: the fields are conjoined, and making
either condition false makes the match false. -/
theorem context_trigger_conjunction :
    ∀ snap : CtxSnapshot,
      contextMatches none none (some "09:00-12:00") (some [1, 2, 3, 4, 5]) snap = true ↔
        (snap.weekday ∈ [1, 2, 3, 4, 5] ∧
         540 ≤ snap.minutesOfDay ∧ snap.minutesOfDay < 720) := by
  intro snap
  have hred : contextMatches none none (some "09:00-12:00") (some [1, 2, 3, 4, 5]) snap
      = ((true && true)
          && (decide (540 ≤ snap.minutesOfDay) && decide (snap.minutesOfDay < 720))
          && ([1, 2, 3, 4, 5].contains snap.weekday)) := rfl
  rw [hred]
  simp only [Bool.true_and, Bool.and_eq_true, decide_eq_true_eq]
  constructor
  · rintro ⟨⟨ht1, ht2⟩, hc⟩
    exact ⟨List.elem_iff.mp hc, ht1, ht2⟩
  · rintro ⟨hm, ht1, ht2⟩
    exact ⟨⟨ht1, ht2⟩, List.elem_iff.mpr hm⟩

theorem context_trigger_conjunction_witness :
    contextMatches none none (some "09:00-12:00") (some [1, 2, 3, 4, 5])
      { openApps := [], windowTitles := [], minutesOfDay := 600, weekday := 3 } = true :=
  (context_trigger_conjunction
    { openApps := [], windowTitles := [], minutesOfDay := 600, weekday := 3 }).mpr
    (by refine ⟨?_, ?_, ?_⟩ <;> decide)

/-- A contiguous-run start is a list-append decomposition. -/
theorem strStartsWith_iff (n : List Char) :
    ∀ h : List Char, strStartsWith n h = true ↔ ∃ q, h = n ++ q := by
  induction n with
  | nil => intro h; simp [strStartsWith]
  | cons a as ih =>
    intro h
    cases h with
    | nil =>
      simp [strStartsWith]
    | cons b bs =>
      rw [strStartsWith]
      simp only [Bool.and_eq_true, beq_iff_eq, ih bs]
      constructor
      · rintro ⟨rfl, q, rfl⟩
        exact ⟨q, rfl⟩
      · rintro ⟨q, hq⟩
        injection hq with h1 h2
        exact ⟨h1.symm, q, h2⟩

/-- Contiguous-run containment is exactly an infix decomposition of the
text. -/
theorem strContainsSub_iff (n : List Char) :
    ∀ h : List Char, strContainsSub n h = true ↔ ∃ p q, h = p ++ n ++ q := by
  intro h
  induction h with
  | nil =>
    cases n with
    | nil => simp [strContainsSub]
    | cons a as =>
      rw [strContainsSub]
      simp [List.isEmpty, List.append_eq_nil]
  | cons x t ih =>
    rw [strContainsSub]
    simp only [Bool.or_eq_true, strStartsWith_iff, ih]
    constructor
    · rintro (⟨q, hq⟩ | ⟨p, q, rfl⟩)
      · exact ⟨[], q, by simpa using hq⟩
      · exact ⟨x :: p, q, rfl⟩
    · rintro ⟨p, q, hq⟩
      cases p with
      | nil =>
        left
        exact ⟨q, by simpa using hq⟩
      | cons y p =>
        right
        injection hq with h1 h2
        exact ⟨p, q, h2⟩

/-- C7: a keyword trigger matches an OCR or audio event exactly when the
event's source passes the trigger's source filter, the pattern occurs inside
the event text (search, not full match), and the confidence is at least the
threshold, an absent threshold defaulting to 0; in particular with
`threshold = 0.8` an OCR event of confidence 0.5 does not match and one of
confidence 0.9 does. -/
theorem keyword_trigger_threshold :
    ∀ (pattern : String) (src : KwSource) (th : Option ℚ) (ev : TextEvent),
      (keywordMatches pattern src th ev = true ↔
        ((src = KwSource.both ∨ (src = KwSource.ocr ∧ ev.source = EvSource.ocr) ∨
          (src = KwSource.audio ∧ ev.source = EvSource.audio)) ∧
         (∃ p q, ev.text.toList = p ++ pattern.toList ++ q) ∧
         th.getD 0 ≤ ev.confidence)) ∧
      keywordMatches "standup" KwSource.ocr (some (mkRat 8 10))
        { source := EvSource.ocr, text := "daily standup time", confidence := mkRat 5 10 } =
        false ∧
      keywordMatches "standup" KwSource.ocr (some (mkRat 8 10))
        { source := EvSource.ocr, text := "daily standup time", confidence := mkRat 9 10 } =
        true := by
  intro pattern src th ev
  refine ⟨?_, by decide, by decide⟩
  obtain ⟨es, txt, conf⟩ := ev
  rw [keywordMatches]
  simp only [Bool.and_eq_true, decide_eq_true_eq, strContainsSub_iff]
  cases src <;> cases es <;> simp [sourceAllowed]

theorem keyword_trigger_threshold_witness :
    keywordMatches "standup" KwSource.ocr (some (mkRat 8 10))
      { source := EvSource.ocr, text := "daily standup time", confidence := mkRat 9 10 } =
      true :=
  (keyword_trigger_threshold "standup" KwSource.ocr (some 0.8)
    { source := EvSource.ocr, text := "daily standup time", confidence := mkRat 9 10 }).2.2

end Zoen
